import Mathlib

/-!
# Verification of the escalation decision engine (ai-receptionist backend)

Shallow embedding of the escalation engine of the `ai-receptionist`
repository: `backend/ai_agent.py` (AIAgent), `backend/database_firebase.py`
(FirebaseDatabase), `backend/scheduler.py` (RequestScheduler) and the data
model of `backend/models.py`.

Modelling conventions:
* Firestore documents become records in lists held by `DBState`; the
  store-assigned document ids become naturals drawn from a counter.
* Timestamps are integers in an abstract unit (one unit = one day for the
  scheduler, whose `timedelta(days=d)` becomes the integer `d`);
  `firestore.SERVER_TIMESTAMP` becomes an explicit `now` argument.
* The OpenAI chat call is an oracle `llm : List Message → ModelOutcome`
  supplied by the environment; a raised exception is `ModelOutcome.failure`.
* Python dictionaries keyed by customer id become a function
  `String → Option (List Message)`; Python list slicing `xs[-n:]` becomes
  `lastN xs n`.
-/

namespace Receptionist

/-- A chat message, one element of a conversation history
(the role/content dictionaries in `ai_agent.py`). -/
structure Message where
  role : String
  content : String
deriving DecidableEq, Repr

/-- `RequestStatus` from `models.py`: pending / resolved / unresolved. -/
inductive RequestStatus where
  | pending
  | resolved
  | unresolved
deriving DecidableEq, Repr

/-- The `context` dictionary stored on a help request by `ai_agent.py`:
either the escalation snapshot `{conversation_history, additional_context}`
(line 146) or the error record `{error: str(e)}` (line 184); `empty` models
the `context or {}` default of `create_help_request`. -/
inductive ReqContext where
  | empty
  | escalation (conversation_history : List Message)
      (additional_context : List (String × String))
  | errorCtx (error : String)
deriving DecidableEq, Repr

/-- A help-request document (`help_requests` collection,
`database_firebase.py` lines 96-109; `HelpRequest` in `models.py`). -/
structure HelpRequest where
  id : Nat
  question : String
  customer_id : String
  customer_phone : Option String
  context : ReqContext
  status : RequestStatus
  created_at : Int
  resolved_at : Option Int
  supervisor_answer : Option String
  supervisor_id : Option String
deriving DecidableEq, Repr

/-- A knowledge-base document (`knowledge_base` collection,
`database_firebase.py` lines 188-198; `KnowledgeBase` in `models.py`). -/
structure KnowledgeEntry where
  id : Nat
  question : String
  answer : String
  source : String
  tags : List String
  created_at : Int
  updated_at : Int
  usage_count : Nat
deriving DecidableEq, Repr

/-- The Firestore database state: the two collections plus the counter
from which store-assigned document ids are drawn. -/
structure DBState where
  requests : List HelpRequest
  knowledge : List KnowledgeEntry
  next_id : Nat
deriving DecidableEq, Repr

/-- Python `s.lower()`: lower-case every character (structural, so that
proofs can evaluate; the Lean-builtin `String.toLower` is the same map but is
not kernel-reducible). -/
def lowerChars (s : String) : List Char :=
  s.data.map Char.toLower

/-- Substring containment on character lists: `needle in haystack` in
Python. -/
def containsSub (needle : List Char) : List Char → Bool
  | [] => needle.isEmpty
  | c :: cs => needle.isPrefixOf (c :: cs) || containsSub needle cs

/-- Case-insensitive substring containment, the membership test
`query_lower in data[...].lower()` of `search_knowledge`
(`database_firebase.py` line 213). -/
def containsCI (haystack query : String) : Bool :=
  containsSub (lowerChars query) (lowerChars haystack)

/-- Python `s.strip()`: drop leading and trailing whitespace. -/
def trimStr (s : String) : String :=
  ⟨((s.data.dropWhile Char.isWhitespace).reverse.dropWhile
      Char.isWhitespace).reverse⟩

/-- Python `s.startswith(pre)`. -/
def startsWithStr (s pre : String) : Bool :=
  pre.data.isPrefixOf s.data

/-- Stable insertion sort, modelling the order_by DESCENDING of the store
(the ordering algorithm of the persistence layer is its own; only the comparison key is contractual). -/
def insertLe {α : Type} (le : α → α → Bool) (a : α) : List α → List α
  | [] => [a]
  | b :: bs => if le a b then a :: b :: bs else b :: insertLe le a bs

/-- See `insertLe`. -/
def sortLe {α : Type} (le : α → α → Bool) : List α → List α
  | [] => []
  | a :: as => insertLe le a (sortLe le as)

/-- `FirebaseDatabase.create_help_request` (lines 88-111): a fresh document
with status `pending`, `created_at` = server time, null resolution fields;
returns the new document id. -/
def create_help_request (s : DBState) (question customerId : String)
    (customerPhone : Option String) (context : ReqContext) (now : Int) :
    Nat × DBState :=
  let rid := s.next_id
  (rid,
    { s with
      requests := s.requests ++
        [{ id := rid
           question := question
           customer_id := customerId
           customer_phone := customerPhone
           context := context
           status := .pending
           created_at := now
           resolved_at := none
           supervisor_answer := none
           supervisor_id := none }]
      next_id := s.next_id + 1 })

/-- `FirebaseDatabase.get_help_request` (lines 113-118). -/
def get_help_request (s : DBState) (rid : Nat) : Option HelpRequest :=
  s.requests.find? (fun r => r.id == rid)

/-- `FirebaseDatabase.get_pending_requests` (lines 120-131): all documents
with status `pending`, ordered by `created_at` descending. -/
def get_pending_requests (s : DBState) : List HelpRequest :=
  sortLe (fun a b => decide (b.created_at ≤ a.created_at))
    (s.requests.filter (fun r => r.status == .pending))

/-- `FirebaseDatabase.update_help_request` (lines 144-163): writes the
supervisor fields, the given status and `resolved_at` = server time onto
the document, UNCONDITIONALLY with respect to the current status; the only
failure mode is a missing document (Firestore `update` raises, the
`except` returns `False`). -/
def update_help_request (s : DBState) (rid : Nat)
    (supervisorAnswer supervisorId : String) (status : RequestStatus)
    (now : Int) : Bool × DBState :=
  if s.requests.any (fun r => r.id == rid) then
    (true,
      { s with
        requests := s.requests.map (fun r =>
          if r.id = rid then
            { r with
              supervisor_answer := some supervisorAnswer
              supervisor_id := some supervisorId
              status := status
              resolved_at := some now }
          else r) })
  else (false, s)

/-- `FirebaseDatabase.mark_request_unresolved` (lines 165-176): sets
status `unresolved` and `resolved_at` = server time, UNCONDITIONALLY with
respect to the current status; fails only on a missing document. -/
def mark_request_unresolved (s : DBState) (rid : Nat) (now : Int) :
    Bool × DBState :=
  if s.requests.any (fun r => r.id == rid) then
    (true,
      { s with
        requests := s.requests.map (fun r =>
          if r.id = rid then
            { r with status := .unresolved, resolved_at := some now }
          else r) })
  else (false, s)

/-- `FirebaseDatabase.add_knowledge` (lines 180-201): appends a fresh
document with `usage_count = 0`; never merges with an existing entry. -/
def add_knowledge (s : DBState) (question answer source : String)
    (tags : List String) (now : Int) : Nat × DBState :=
  let kid := s.next_id
  (kid,
    { s with
      knowledge := s.knowledge ++
        [{ id := kid
           question := question
           answer := answer
           source := source
           tags := tags
           created_at := now
           updated_at := now
           usage_count := 0 }]
      next_id := s.next_id + 1 })

/-- `FirebaseDatabase.search_knowledge` (lines 203-219): linear scan of the
collection keeping every entry whose question or answer contains the query
case-insensitively, in store iteration order. -/
def search_knowledge (s : DBState) (query : String) : List KnowledgeEntry :=
  s.knowledge.filter (fun k =>
    containsCI k.question query || containsCI k.answer query)

/-- `FirebaseDatabase.increment_knowledge_usage` (lines 245-254):
`firestore.Increment(1)` on `usage_count`; fails only on a missing
document. -/
def increment_knowledge_usage (s : DBState) (kid : Nat) : Bool × DBState :=
  if s.knowledge.any (fun k => k.id == kid) then
    (true,
      { s with
        knowledge := s.knowledge.map (fun k =>
          if k.id = kid then { k with usage_count := k.usage_count + 1 }
          else k) })
  else (false, s)

/-! ## The AI agent (`backend/ai_agent.py`) -/

/-- The salon system prompt `SALON_KNOWLEDGE` (`ai_agent.py` lines 9-59);
its content is opaque to every verified property. -/
def SALON_KNOWLEDGE : String :=
  "\nYou are an AI receptionist for \"Glamour Haven Salon\", a premium beauty salon.\n\nBUSINESS INFORMATION:\n- Name: Glamour Haven Salon\n- Location: 123 Beauty Street, Downtown\n- Hours: Monday-Saturday 9 AM - 8 PM, Sunday 10 AM - 6 PM\n- Phone: (555) 123-4567\n\nSERVICES OFFERED:\n1. Haircuts & Styling\n   - Women\x27s Cut: $65\n   - Men\x27s Cut: $45\n   - Children\x27s Cut: $30\n   - Blow Dry & Style: $40\n\n2. Hair Coloring\n   - Full Color: $120\n   - Highlights: $150\n   - Balayage: $180\n\n3. Treatments\n   - Deep Conditioning: $50\n   - Keratin Treatment: $250\n\n4. Nails\n   - Manicure: $35\n   - Pedicure: $50\n   - Gel Nails: $60\n\n5. Spa Services\n   - Facial: $85\n   - Massage (60 min): $100\n\nBOOKING POLICY:\n- Appointments can be booked online or by phone\n- 24-hour cancellation policy\n- Late arrivals may result in shortened service time\n\nSTAFF:\n- Sarah (Senior Stylist) - Specializes in color\n- Mike (Master Barber) - Men\x27s cuts and grooming\n- Lisa (Nail Technician)\n- Emma (Esthetician) - Facials and skincare\n\nIMPORTANT INSTRUCTIONS:\n- Be friendly, professional, and helpful\n- If you don\x27t know the answer to a question, say: \"Let me check with my supervisor and get back to you.\"\n- Never make up information\n- Always confirm appointment details\n"

/-- The second system message of `process_question` (`ai_agent.py` lines
106-114): the escalation rules, telling the model to start its reply with
the `[ESCALATE]` marker when unsure; content opaque to every verified
property. -/
def ESCALATION_RULES : String :=
  "\n            ESCALATION RULES:\n            - If the question is about something not covered in your knowledge base, respond with: \"Let me check with my supervisor and get back to you.\"\n            - If the customer asks about specific availability, pricing not listed, or special requests, escalate.\n            - If you\x27re uncertain about any information, escalate rather than guessing.\n            - When escalating, be polite and assure the customer you\x27ll get back to them soon.\n            \n            To escalate, include [ESCALATE] at the start of your response.\n            "

/-- The fixed deferral message returned on escalation
(`ai_agent.py` line 153). -/
def ESCALATION_MESSAGE : String :=
  "Let me check with my supervisor and get back to you shortly. We\x27ll call you back with the answer!"

/-- The fixed deferral message returned when the model call raises
(`ai_agent.py` line 188). -/
def ERROR_FALLBACK_MESSAGE : String :=
  "I\x27m having trouble processing your request. Let me get a supervisor to help you."

/-- `AIAgent.conversation_history`: the per-customer history dictionary
(`ai_agent.py` line 69); `none` models an absent key. -/
structure AgentState where
  conversation_history : String → Option (List Message)

/-- Dictionary write `self.conversation_history[customer_id] = h`. -/
def setHistory (ag : AgentState) (customerId : String) (h : List Message) :
    AgentState :=
  ⟨fun c => if c = customerId then some h else ag.conversation_history c⟩

/-- Python list slice `xs[-n:]`: the last `n` elements (all of them when
`xs` is shorter). -/
def lastN {α : Type} (l : List α) (n : Nat) : List α :=
  l.drop (l.length - n)

/-- Outcome of the OpenAI chat call in `process_question`: either the
completion text or a raised exception rendered as a string. -/
inductive ModelOutcome where
  | reply (text : String)
  | failure (error : String)
deriving DecidableEq, Repr

/-- The dictionary returned by `AIAgent.process_question`
(`AgentResponse` in `models.py`). -/
structure AgentResult where
  response : String
  needs_help : Bool
  help_request_id : Option Nat
  knowledge_used : Option Nat
deriving DecidableEq, Repr

/-- The `messages` list built for the model on a knowledge miss
(`ai_agent.py` lines 104-121): two system messages, the last 5 entries of
the customer history (`[-5:]`), then the current question. -/
def build_messages (hist : List Message) (question : String) : List Message :=
  [⟨"system", SALON_KNOWLEDGE⟩, ⟨"system", ESCALATION_RULES⟩]
    ++ lastN hist 5 ++ [⟨"user", question⟩]

/-- `AIAgent.process_question` (`ai_agent.py` lines 71-192). The OpenAI
call is the oracle `llm`, applied to exactly the `messages` the code
builds; `now` is the server timestamp of any created request. -/
def process_question (llm : List Message → ModelOutcome) (ag : AgentState)
    (s : DBState) (question customerId : String)
    (customerPhone : Option String)
    (callerContext : Option (List (String × String))) (now : Int) :
    AgentResult × AgentState × DBState :=
  let hist := (ag.conversation_history customerId).getD []
  let ag1 := setHistory ag customerId hist
  match search_knowledge s question with
  | k :: _ =>
    (⟨k.answer, false, none, some k.id⟩, ag1,
      (increment_knowledge_usage s k.id).2)
  | [] =>
    match llm (build_messages hist question) with
    | .failure err =>
      let r := create_help_request s question customerId customerPhone
        (.errorCtx err) now
      (⟨ERROR_FALLBACK_MESSAGE, true, some r.1, none⟩, ag1, r.2)
    | .reply text =>
      let ai := trimStr text
      if startsWithStr ai "[ESCALATE]" then
        -- the code also computes `ai.replace("[ESCALATE]", "").strip()`
        -- here, but never uses it: the returned text is ESCALATION_MESSAGE
        let r := create_help_request s question customerId customerPhone
          (.escalation (lastN hist 3) (callerContext.getD [])) now
        let ag2 := setHistory ag1 customerId
          (hist ++ [⟨"user", question⟩, ⟨"assistant", ESCALATION_MESSAGE⟩])
        (⟨ESCALATION_MESSAGE, true, some r.1, none⟩, ag2, r.2)
      else
        let ag2 := setHistory ag1 customerId
          (hist ++ [⟨"user", question⟩, ⟨"assistant", ai⟩])
        (⟨ai, false, none, none⟩, ag2, s)

/-- `AIAgent.follow_up_with_customer` (`ai_agent.py` lines 241-267): if
the customer history is resident, append a synthetic follow-up turn. -/
def follow_up_with_customer (ag : AgentState) (customerId : String)
    (question answer : String) : AgentState :=
  match ag.conversation_history customerId with
  | none => ag
  | some h =>
    setHistory ag customerId
      (h ++ [⟨"assistant", "Following up on your question: " ++ question
        ++ ". Here\x27s the answer: " ++ answer⟩])

/-- `AIAgent.handle_supervisor_response` (`ai_agent.py` lines 194-239):
fetch the request (fail only when missing), unconditionally update it to
resolved, append a knowledge entry, follow up with the customer. The
current status of the request is NEVER inspected. -/
def handle_supervisor_response (ag : AgentState) (s : DBState)
    (requestId : Nat) (supervisorAnswer supervisorId : String) (now : Int) :
    Bool × AgentState × DBState :=
  match get_help_request s requestId with
  | none => (false, ag, s)
  | some req =>
    let s1 := (update_help_request s requestId supervisorAnswer supervisorId
      .resolved now).2
    let s2 := (add_knowledge s1 req.question supervisorAnswer "supervisor"
      ["learned", "supervisor_response"] now).2
    (true,
      follow_up_with_customer ag req.customer_id req.question supervisorAnswer,
      s2)

/-- `AIAgent.clear_conversation_history` (`ai_agent.py` lines 269-272). -/
def clear_conversation_history (ag : AgentState) (customerId : String) :
    AgentState :=
  ⟨fun c => if c = customerId then none else ag.conversation_history c⟩

/-! ## The timeout sweeper (`backend/scheduler.py`) -/

/-- `RequestScheduler.check_old_requests` (`scheduler.py` lines 24-43):
one sweep tick. Fetch the pending requests, then mark as unresolved every
one whose `created_at` is strictly older than `now - timeout_days`
(`timedelta(days=d)` is the integer `d` in our time unit). -/
def check_old_requests (s : DBState) (timeout_days now : Int) : DBState :=
  (get_pending_requests s).foldl
    (fun acc r =>
      if r.created_at < now - timeout_days then
        (mark_request_unresolved acc r.id now).2
      else acc) s

/-! ## Helper lemmas -/

theorem mem_insertLe {α : Type} (le : α → α → Bool) (a b : α) (l : List α) :
    b ∈ insertLe le a l ↔ b = a ∨ b ∈ l := by
  induction l with
  | nil => simp [insertLe]
  | cons x xs ih =>
    simp only [insertLe]
    split
    · simp [or_comm, or_left_comm]
    · simp [ih, or_comm, or_left_comm]

theorem mem_sortLe {α : Type} (le : α → α → Bool) (b : α) (l : List α) :
    b ∈ sortLe le l ↔ b ∈ l := by
  induction l with
  | nil => simp [sortLe]
  | cons x xs ih => simp [sortLe, mem_insertLe, ih]

/-- The per-document effect of `mark_request_unresolved rid now`. -/
def markUnresolvedFn (rid : Nat) (now : Int) (r : HelpRequest) : HelpRequest :=
  if r.id = rid then { r with status := .unresolved, resolved_at := some now }
  else r

theorem mark_request_unresolved_requests (s : DBState) (rid : Nat) (now : Int) :
    (mark_request_unresolved s rid now).2.requests =
      s.requests.map (markUnresolvedFn rid now) := by
  unfold mark_request_unresolved
  split
  · simp [markUnresolvedFn]
  · rename_i h
    rw [Bool.not_eq_true, List.any_eq_false] at h
    rw [List.map_congr_left (g := id) ?_, List.map_id]
    intro r hr
    have : ¬ r.id = rid := by simpa using h r hr
    simp [markUnresolvedFn, this]

theorem foldl_mark_filter (th now : Int) (todo : List HelpRequest)
    (acc : DBState) :
    todo.foldl
      (fun acc r =>
        if r.created_at < th then (mark_request_unresolved acc r.id now).2
        else acc) acc
      = (todo.filter (fun r => decide (r.created_at < th))).foldl
          (fun acc r => (mark_request_unresolved acc r.id now).2) acc := by
  induction todo generalizing acc with
  | nil => rfl
  | cons r rs ih =>
    simp only [List.foldl_cons, List.filter_cons]
    by_cases h : r.created_at < th
    · simp only [h, if_true, decide_eq_true_eq]
      simp [h, ih]
    · simp [h, ih]

theorem foldl_mark_requests (now : Int) (todo : List HelpRequest)
    (acc : DBState) :
    (todo.foldl (fun acc r => (mark_request_unresolved acc r.id now).2)
        acc).requests
      = acc.requests.map (fun q =>
          if todo.any (fun r => r.id == q.id) then
            { q with status := .unresolved, resolved_at := some now }
          else q) := by
  induction todo generalizing acc with
  | nil => simp
  | cons r rs ih =>
    simp only [List.foldl_cons]
    rw [ih, mark_request_unresolved_requests, List.map_map]
    apply List.map_congr_left
    intro q _
    by_cases hid : q.id = r.id
    · simp [markUnresolvedFn, Function.comp, hid]
    · simp [markUnresolvedFn, Function.comp, hid, Ne.symm hid]

/-- Modelled from the spec: the per-request effect that one sweep tick is
specified to have (§4.3, §8.7) — a Pending request strictly older than
the threshold becomes Unresolved with `resolved_at` = sweep time, and
every other request is untouched. -/
def sweep_spec (threshold now : Int) (r : HelpRequest) : HelpRequest :=
  if r.status = .pending ∧ r.created_at < threshold then
    { r with status := .unresolved, resolved_at := some now }
  else r

/-- When request ids are distinct, one sweep tick acts on the store as the
pointwise `sweep_spec` map. -/
theorem check_old_requests_requests (s : DBState) (t now : Int)
    (hnodup : (s.requests.map (fun r => r.id)).Nodup) :
    (check_old_requests s t now).requests =
      s.requests.map (sweep_spec (now - t) now) := by
  unfold check_old_requests
  rw [foldl_mark_filter, foldl_mark_requests]
  apply List.map_congr_left
  intro q hq
  by_cases hP : q.status = .pending ∧ q.created_at < now - t
  · have hany : ((get_pending_requests s).filter
        (fun r => decide (r.created_at < now - t))).any
          (fun r => r.id == q.id) = true := by
      rw [List.any_eq_true]
      refine ⟨q, ?_, by simp⟩
      rw [List.mem_filter]
      refine ⟨?_, by simp [hP.2]⟩
      unfold get_pending_requests
      rw [mem_sortLe, List.mem_filter]
      exact ⟨hq, by simp [hP.1]⟩
    rw [hany, if_pos rfl]
    simp [sweep_spec, hP]
  · have hany : ((get_pending_requests s).filter
        (fun r => decide (r.created_at < now - t))).any
          (fun r => r.id == q.id) = false := by
      rw [List.any_eq_false]
      intro r hr hbeq
      rw [List.mem_filter] at hr
      obtain ⟨hr1, hr2⟩ := hr
      unfold get_pending_requests at hr1
      rw [mem_sortLe, List.mem_filter] at hr1
      obtain ⟨hrmem, hrpend⟩ := hr1
      have hrq : r = q := by
        refine List.inj_on_of_nodup_map hnodup hrmem hq ?_
        simpa using hbeq
      subst hrq
      exact hP ⟨by simpa using hrpend, by simpa using hr2⟩
    rw [hany]
    simp [sweep_spec, hP]

theorem setHistory_same (ag : AgentState) (cid : String) (h : List Message) :
    (setHistory ag cid h).conversation_history cid = some h := by
  simp [setHistory]

theorem setHistory_other (ag : AgentState) (cid c : String)
    (h : List Message) (hne : c ≠ cid) :
    (setHistory ag cid h).conversation_history c =
      ag.conversation_history c := by
  simp [setHistory, hne]

theorem lastN_suffix {α : Type} (l : List α) (n : Nat) : lastN l n <:+ l :=
  List.drop_suffix _ _

theorem lastN_length {α : Type} (l : List α) (n : Nat) :
    (lastN l n).length = min n l.length := by
  simp only [lastN, List.length_drop]
  omega

/-- The per-document effect of `update_help_request rid ans sup st now`. -/
def resolveFn (rid : Nat) (ans sup : String) (st : RequestStatus)
    (now : Int) (r : HelpRequest) : HelpRequest :=
  if r.id = rid then
    { r with supervisor_answer := some ans, supervisor_id := some sup,
             status := st, resolved_at := some now }
  else r

theorem update_help_request_requests (s : DBState) (rid : Nat)
    (ans sup : String) (st : RequestStatus) (now : Int) :
    (update_help_request s rid ans sup st now).2.requests =
      s.requests.map (resolveFn rid ans sup st now) := by
  unfold update_help_request
  split
  · simp [resolveFn]
  · rename_i h
    rw [Bool.not_eq_true, List.any_eq_false] at h
    rw [List.map_congr_left (g := id) ?_, List.map_id]
    intro r hr
    have : ¬ r.id = rid := by simpa using h r hr
    simp [resolveFn, this]

theorem update_help_request_knowledge (s : DBState) (rid : Nat)
    (ans sup : String) (st : RequestStatus) (now : Int) :
    (update_help_request s rid ans sup st now).2.knowledge = s.knowledge := by
  unfold update_help_request
  split <;> rfl

theorem update_help_request_next_id (s : DBState) (rid : Nat)
    (ans sup : String) (st : RequestStatus) (now : Int) :
    (update_help_request s rid ans sup st now).2.next_id = s.next_id := by
  unfold update_help_request
  split <;> rfl

theorem increment_knowledge_usage_requests (s : DBState) (kid : Nat) :
    (increment_knowledge_usage s kid).2.requests = s.requests := by
  unfold increment_knowledge_usage
  split <;> rfl

/-- Branch reduction: a knowledge hit short-circuits `process_question`. -/
theorem pq_hit (llm : List Message → ModelOutcome) (ag : AgentState)
    (s : DBState) (question cid : String) (phone : Option String)
    (cctx : Option (List (String × String))) (now : Int)
    (k : KnowledgeEntry) (rest : List KnowledgeEntry)
    (hhit : search_knowledge s question = k :: rest) :
    process_question llm ag s question cid phone cctx now =
      (⟨k.answer, false, none, some k.id⟩,
       setHistory ag cid ((ag.conversation_history cid).getD []),
       (increment_knowledge_usage s k.id).2) := by
  unfold process_question
  rw [hhit]

/-- Branch reduction: knowledge miss and model failure. -/
theorem pq_miss_failure (llm : List Message → ModelOutcome) (ag : AgentState)
    (s : DBState) (question cid : String) (phone : Option String)
    (cctx : Option (List (String × String))) (now : Int) (err : String)
    (hmiss : search_knowledge s question = [])
    (hfail : llm (build_messages ((ag.conversation_history cid).getD [])
      question) = .failure err) :
    process_question llm ag s question cid phone cctx now =
      (⟨ERROR_FALLBACK_MESSAGE, true, some s.next_id, none⟩,
       setHistory ag cid ((ag.conversation_history cid).getD []),
       (create_help_request s question cid phone (.errorCtx err) now).2) := by
  unfold process_question
  simp only [hmiss, hfail]
  rfl

/-- Branch reduction: knowledge miss and a reply carrying the escalation
marker. -/
theorem pq_miss_escalate (llm : List Message → ModelOutcome)
    (ag : AgentState) (s : DBState) (question cid : String)
    (phone : Option String) (cctx : Option (List (String × String)))
    (now : Int) (t : String)
    (hmiss : search_knowledge s question = [])
    (hreply : llm (build_messages ((ag.conversation_history cid).getD [])
      question) = .reply t)
    (hesc : startsWithStr (trimStr t) "[ESCALATE]" = true) :
    process_question llm ag s question cid phone cctx now =
      (⟨ESCALATION_MESSAGE, true, some s.next_id, none⟩,
       setHistory (setHistory ag cid ((ag.conversation_history cid).getD []))
         cid (((ag.conversation_history cid).getD []) ++
           [⟨"user", question⟩, ⟨"assistant", ESCALATION_MESSAGE⟩]),
       (create_help_request s question cid phone
         (.escalation (lastN ((ag.conversation_history cid).getD []) 3)
           (cctx.getD [])) now).2) := by
  unfold process_question
  simp only [hmiss, hreply, hesc, if_true]
  rfl

/-- Branch reduction: knowledge miss and a plain reply. -/
theorem pq_miss_normal (llm : List Message → ModelOutcome)
    (ag : AgentState) (s : DBState) (question cid : String)
    (phone : Option String) (cctx : Option (List (String × String)))
    (now : Int) (t : String)
    (hmiss : search_knowledge s question = [])
    (hreply : llm (build_messages ((ag.conversation_history cid).getD [])
      question) = .reply t)
    (hesc : startsWithStr (trimStr t) "[ESCALATE]" = false) :
    process_question llm ag s question cid phone cctx now =
      (⟨trimStr t, false, none, none⟩,
       setHistory (setHistory ag cid ((ag.conversation_history cid).getD []))
         cid (((ag.conversation_history cid).getD []) ++
           [⟨"user", question⟩, ⟨"assistant", trimStr t⟩]),
       s) := by
  unfold process_question
  simp only [hmiss, hreply, hesc, Bool.false_eq_true, if_false]

/-! ## Concrete fixtures for counterexamples and witnesses -/

/-- An already-Resolved request (for claim C1). -/
def reqC1 : HelpRequest :=
  ⟨0, "q", "alice", none, .empty, .resolved, 0, some 1, some "old",
    some "sup1"⟩

/-- An agent with no conversation history (for claims C1 and C8). -/
def agC1 : AgentState := ⟨fun _ => none⟩

/-- An already-Resolved request (for claim C2). -/
def reqC2 : HelpRequest :=
  ⟨0, "q", "alice", none, .empty, .resolved, 0, some 1, some "ans",
    some "sup1"⟩

/-- An old Pending request sharing the store with `reqC2`. -/
def reqC2b : HelpRequest :=
  ⟨1, "q2", "bob", none, .empty, .pending, 0, none, none, none⟩

/-- A Pending request created at time 7 = 10 − 3 (for claim C7). -/
def reqC7old : HelpRequest :=
  ⟨0, "q1", "alice", none, .empty, .pending, 7, none, none, none⟩

/-- A Pending request created at time 9 = 10 − 1 (for claim C7). -/
def reqC7new : HelpRequest :=
  ⟨1, "q2", "bob", none, .empty, .pending, 9, none, none, none⟩

/-- A Pending request (for claim C8). -/
def reqC8 : HelpRequest :=
  ⟨3, "Do you do bridal packages?", "carol", some "555", .empty, .pending,
    1, none, none, none⟩

/-- A pre-existing knowledge entry (for claim C8: the append leaves it in
place). -/
def kC8 : KnowledgeEntry :=
  ⟨0, "What are your hours?", "We are open 9-8 Mon-Sat.", "initial",
    ["hours"], 0, 0, 4⟩

/-! ## Claim C1 (supervisor resolution has no status guard) -/

/-- Claim C1, counterexample. The fixture request is already Resolved
(`supervisor_answer = some "old"`, `resolved_at = some 1`). Resolving it a
second time does NOT fail with an invalid-state error: it reports success,
overwrites `resolved_at`, `supervisor_answer` and `supervisor_id`, and
appends an additional knowledge entry (the knowledge base grows from empty
to one entry). -/
theorem claim_C1_counterexample :
    reqC1.status = .resolved ∧
    (handle_supervisor_response agC1 ⟨[reqC1], [], 1⟩ 0 "new" "sup2" 5).1
      = true ∧
    (handle_supervisor_response agC1 ⟨[reqC1], [], 1⟩ 0 "new" "sup2"
        5).2.2.requests =
      [⟨0, "q", "alice", none, .empty, .resolved, 0, some 5, some "new",
        some "sup2"⟩] ∧
    (handle_supervisor_response agC1 ⟨[reqC1], [], 1⟩ 0 "new" "sup2"
        5).2.2.knowledge.length = 1 := by
  decide

/-- Claim C1 (amended): `handle_supervisor_response` never inspects the
current status. On ANY existing request — Pending or already terminal —
it reports success, overwrites the supervisor fields, status and
`resolved_at` of every request with that id, and appends one more
knowledge entry; only a missing request id fails. -/
theorem claim_C1_amended (ag : AgentState) (s : DBState) (rid : Nat)
    (ans sup : String) (now : Int) (req : HelpRequest)
    (hreq : get_help_request s rid = some req) :
    (handle_supervisor_response ag s rid ans sup now).1 = true ∧
    (handle_supervisor_response ag s rid ans sup now).2.2.requests =
      s.requests.map (resolveFn rid ans sup .resolved now) ∧
    (handle_supervisor_response ag s rid ans sup now).2.2.knowledge =
      s.knowledge ++ [⟨s.next_id, req.question, ans, "supervisor",
        ["learned", "supervisor_response"], now, now, 0⟩] := by
  unfold handle_supervisor_response
  rw [hreq]
  refine ⟨rfl, ?_, ?_⟩
  · show (add_knowledge _ _ _ _ _ _).2.requests = _
    have : ∀ s1 : DBState, (add_knowledge s1 req.question ans "supervisor"
        ["learned", "supervisor_response"] now).2.requests = s1.requests :=
      fun _ => rfl
    rw [this, update_help_request_requests]
  · show (add_knowledge _ _ _ _ _ _).2.knowledge = _
    have hk : ∀ s1 : DBState, (add_knowledge s1 req.question ans "supervisor"
        ["learned", "supervisor_response"] now).2.knowledge =
          s1.knowledge ++ [⟨s1.next_id, req.question, ans, "supervisor",
            ["learned", "supervisor_response"], now, now, 0⟩] :=
      fun _ => rfl
    rw [hk, update_help_request_knowledge, update_help_request_next_id]

/-- Claim C1 witness: amended claim applied to a store holding one
already-Resolved request. -/
theorem claim_C1_witness :
    get_help_request ⟨[reqC1], [], 1⟩ 0 = some reqC1 ∧
    (handle_supervisor_response agC1 ⟨[reqC1], [], 1⟩ 0 "new" "sup2" 5).1
      = true ∧
    (handle_supervisor_response agC1 ⟨[reqC1], [], 1⟩ 0 "new" "sup2"
        5).2.2.requests =
      (⟨[reqC1], [], 1⟩ : DBState).requests.map
        (resolveFn 0 "new" "sup2" .resolved 5) ∧
    (handle_supervisor_response agC1 ⟨[reqC1], [], 1⟩ 0 "new" "sup2"
        5).2.2.knowledge =
      (⟨[reqC1], [], 1⟩ : DBState).knowledge ++ [⟨1, reqC1.question, "new",
        "supervisor", ["learned", "supervisor_response"], 5, 5, 0⟩] :=
  ⟨by decide, claim_C1_amended agC1 ⟨[reqC1], [], 1⟩ 0 "new" "sup2" 5 reqC1
    (by decide)⟩

/-! ## Claim C2 (sweep update is unconditional) -/

/-- Claim C2, counterexample. The update primitive of the sweep,
`mark_request_unresolved` is NOT conditional on status: applied to a
request that is already Resolved it reports success and silently
overwrites the status to Unresolved and `resolved_at` to the sweep time,
instead of observing a no-op. -/
theorem claim_C2_counterexample :
    reqC2.status = .resolved ∧
    (mark_request_unresolved ⟨[reqC2], [], 1⟩ 0 5).1 = true ∧
    (mark_request_unresolved ⟨[reqC2], [], 1⟩ 0 5).2.requests =
      [{ reqC2 with status := .unresolved, resolved_at := some 5 }] := by
  decide

/-- Claim C2 (amended): the update is unconditional on status (see the
counterexample), but within one atomic sweep tick only requests that were
Pending at scan time are updated: when request ids are distinct, every
request that is already terminal when the tick starts is left unchanged
by the tick. The no-overwrite guarantee holds only in the absence of a
resolution racing between the scan and the update. -/
theorem claim_C2_amended (s : DBState) (t now : Int)
    (hnodup : (s.requests.map (fun r => r.id)).Nodup)
    (q : HelpRequest) (hq : q ∈ s.requests)
    (hterm : q.status ≠ .pending) :
    q ∈ (check_old_requests s t now).requests := by
  rw [check_old_requests_requests s t now hnodup]
  refine List.mem_map.mpr ⟨q, hq, ?_⟩
  simp [sweep_spec, hterm]

/-- Claim C2 witness: a store with one Resolved and one old Pending
request; the Resolved one survives a tick unchanged. -/
theorem claim_C2_witness :
    ((⟨[reqC2, reqC2b], [], 2⟩ : DBState).requests.map
      (fun r => r.id)).Nodup ∧
    reqC2 ∈ (⟨[reqC2, reqC2b], [], 2⟩ : DBState).requests ∧
    reqC2.status ≠ .pending ∧
    reqC2 ∈ (check_old_requests ⟨[reqC2, reqC2b], [], 2⟩ 2 10).requests :=
  ⟨by decide, by decide, by decide,
    claim_C2_amended ⟨[reqC2, reqC2b], [], 2⟩ 2 10 (by decide) reqC2
      (by decide) (by decide)⟩

/-! ## Claim C7 (timeout sweep) -/

/-- Claim C7: one sweep tick acts on the request store pointwise — every
Pending request strictly older than the timeout threshold becomes
Unresolved with `resolved_at` set to the sweep time, and every other
request (in particular every Pending request within the threshold) is
unchanged. Stated for distinct request ids. -/
theorem claim_C7 (s : DBState) (timeout_days now : Int)
    (hnodup : (s.requests.map (fun r => r.id)).Nodup) :
    (check_old_requests s timeout_days now).requests =
      s.requests.map (sweep_spec (now - timeout_days) now) :=
  check_old_requests_requests s timeout_days now hnodup

/-- Claim C7 witness: threshold 2 days, sweep at time 10; the Pending
request created at 7 (now − 3 days) becomes Unresolved with
`resolved_at = 10`, the Pending request created at 9 (now − 1 day) stays
Pending. -/
theorem claim_C7_witness :
    ((⟨[reqC7old, reqC7new], [], 2⟩ : DBState).requests.map
      (fun r => r.id)).Nodup ∧
    (check_old_requests ⟨[reqC7old, reqC7new], [], 2⟩ 2 10).requests =
      (⟨[reqC7old, reqC7new], [], 2⟩ : DBState).requests.map
        (sweep_spec 8 10) ∧
    (check_old_requests ⟨[reqC7old, reqC7new], [], 2⟩ 2 10).requests =
      [{ reqC7old with status := .unresolved, resolved_at := some 10 },
       reqC7new] :=
  ⟨by decide,
   claim_C7 ⟨[reqC7old, reqC7new], [], 2⟩ 2 10 (by decide),
   by decide⟩

/-! ## Claim C8 (resolution and learning) -/

/-- Claim C8: resolving a Pending request reports success, transitions the
request to Resolved with non-null `resolved_at`, `supervisor_answer` and
`supervisor_id`, and appends exactly one new knowledge entry carrying the
question of the request, the answer of the supervisor, source "supervisor" and tags
learned/supervisor_response — a pure append that leaves every existing
entry in place. -/
theorem claim_C8 (ag : AgentState) (s : DBState) (rid : Nat)
    (ans sup : String) (now : Int) (req : HelpRequest)
    (hreq : get_help_request s rid = some req)
    (hpending : req.status = .pending) :
    (handle_supervisor_response ag s rid ans sup now).1 = true ∧
    { req with
        supervisor_answer := some ans
        supervisor_id := some sup
        status := RequestStatus.resolved
        resolved_at := some now } ∈
      (handle_supervisor_response ag s rid ans sup now).2.2.requests ∧
    (handle_supervisor_response ag s rid ans sup now).2.2.requests =
      s.requests.map (resolveFn rid ans sup .resolved now) ∧
    (handle_supervisor_response ag s rid ans sup now).2.2.knowledge =
      s.knowledge ++ [⟨s.next_id, req.question, ans, "supervisor",
        ["learned", "supervisor_response"], now, now, 0⟩] := by
  have hmem : req ∈ s.requests := List.mem_of_find?_eq_some hreq
  have hid : req.id = rid := by
    have := List.find?_some hreq
    simpa using this
  unfold handle_supervisor_response
  rw [hreq]
  refine ⟨rfl, ?_, ?_, ?_⟩
  · show _ ∈ (add_knowledge _ _ _ _ _ _).2.requests
    have hr : ∀ s1 : DBState, (add_knowledge s1 req.question ans "supervisor"
        ["learned", "supervisor_response"] now).2.requests = s1.requests :=
      fun _ => rfl
    rw [hr, update_help_request_requests]
    refine List.mem_map.mpr ⟨req, hmem, ?_⟩
    simp [resolveFn, hid]
  · show (add_knowledge _ _ _ _ _ _).2.requests = _
    have hr : ∀ s1 : DBState, (add_knowledge s1 req.question ans "supervisor"
        ["learned", "supervisor_response"] now).2.requests = s1.requests :=
      fun _ => rfl
    rw [hr, update_help_request_requests]
  · show (add_knowledge _ _ _ _ _ _).2.knowledge = _
    have hk : ∀ s1 : DBState, (add_knowledge s1 req.question ans "supervisor"
        ["learned", "supervisor_response"] now).2.knowledge =
          s1.knowledge ++ [⟨s1.next_id, req.question, ans, "supervisor",
            ["learned", "supervisor_response"], now, now, 0⟩] :=
      fun _ => rfl
    rw [hk, update_help_request_knowledge, update_help_request_next_id]

/-- Claim C8 witness: a Pending request resolved with answer "X". -/
theorem claim_C8_witness :
    get_help_request ⟨[reqC8], [kC8], 7⟩ 3 = some reqC8 ∧
    reqC8.status = .pending ∧
    (handle_supervisor_response agC1 ⟨[reqC8], [kC8], 7⟩ 3 "X" "sup1"
        9).1 = true ∧
    { reqC8 with
        supervisor_answer := some "X"
        supervisor_id := some "sup1"
        status := RequestStatus.resolved
        resolved_at := some 9 } ∈
      (handle_supervisor_response agC1 ⟨[reqC8], [kC8], 7⟩ 3 "X" "sup1"
        9).2.2.requests ∧
    (handle_supervisor_response agC1 ⟨[reqC8], [kC8], 7⟩ 3 "X" "sup1"
        9).2.2.knowledge =
      [kC8] ++ [⟨7, reqC8.question, "X", "supervisor",
        ["learned", "supervisor_response"], 9, 9, 0⟩] := by
  have h := claim_C8 agC1 ⟨[reqC8], [kC8], 7⟩ 3 "X" "sup1" 9 reqC8
    (by decide) (by decide)
  exact ⟨by decide, by decide, h.1, h.2.1, h.2.2.2⟩

/-! ## Claim C3 (conversation windows) -/

/-- Modelled from the spec: «the last n turn-pairs of the customer» — `n`
turn-pairs are the last `2 * n` messages of the history. -/
def specLastPairs (l : List Message) (n : Nat) : List Message :=
  lastN l (2 * n)

/-- A six-message history: three complete turn-pairs (for claim C3). -/
def msgsC3 : List Message :=
  [⟨"user", "u1"⟩, ⟨"assistant", "a1"⟩, ⟨"user", "u2"⟩,
   ⟨"assistant", "a2"⟩, ⟨"user", "u3"⟩, ⟨"assistant", "a3"⟩]

/-- An agent whose history for "alice" is `msgsC3` (for claim C3). -/
def agC3 : AgentState :=
  ⟨fun c => if c = "alice" then some msgsC3 else none⟩

/-- A model oracle that always escalates (for claim C3). -/
def llmC3 : List Message → ModelOutcome :=
  fun _ => .reply "[ESCALATE] unsure"

/-- An empty store (for claim C3). -/
def dbC3 : DBState := ⟨[], [], 0⟩

/-- Claim C3, counterexample. With a six-message (three turn-pair)
history, the last 5 turn-pairs would be all six messages, so the claimed
model request would hold 9 messages, yet the built request holds only 8
(two system messages, the last 5 history messages, the question); and the
last 3 turn-pairs would again be all six messages, yet the escalation
snapshot stores only the last 3 messages. The claim fails on both
windows. -/
theorem claim_C3_counterexample :
    ((build_messages msgsC3 "q").length ≠
      ([⟨"system", SALON_KNOWLEDGE⟩, ⟨"system", ESCALATION_RULES⟩]
        ++ specLastPairs msgsC3 5 ++ [⟨"user", "q"⟩] :
          List Message).length) ∧
    ((process_question llmC3 agC3 dbC3 "q" "alice" none none 0).2.2.requests
      ≠ [⟨0, "q", "alice", none,
          .escalation (specLastPairs msgsC3 3) [], .pending, 0, none, none,
          none⟩]) := by
  decide

/-- Claim C3 (amended): the history included in the model request is the
last 5 messages of the customer (individual turns, not turn-pairs) — a suffix
of the history of length `min 5 len` — and the escalation snapshot stored
in the request context is the last 3 messages of the customer, a suffix of
length `min 3 len`. -/
theorem claim_C3_amended (llm : List Message → ModelOutcome)
    (ag : AgentState) (s : DBState) (question cid : String)
    (phone : Option String) (cctx : Option (List (String × String)))
    (now : Int) (t : String)
    (hmiss : search_knowledge s question = [])
    (hreply : llm (build_messages ((ag.conversation_history cid).getD [])
      question) = .reply t)
    (hesc : startsWithStr (trimStr t) "[ESCALATE]" = true) :
    build_messages ((ag.conversation_history cid).getD []) question =
      [⟨"system", SALON_KNOWLEDGE⟩, ⟨"system", ESCALATION_RULES⟩]
        ++ lastN ((ag.conversation_history cid).getD []) 5
        ++ [⟨"user", question⟩] ∧
    lastN ((ag.conversation_history cid).getD []) 5 <:+
      (ag.conversation_history cid).getD [] ∧
    (lastN ((ag.conversation_history cid).getD []) 5).length =
      min 5 ((ag.conversation_history cid).getD []).length ∧
    (process_question llm ag s question cid phone cctx now).2.2.requests =
      s.requests ++ [⟨s.next_id, question, cid, phone,
        .escalation (lastN ((ag.conversation_history cid).getD []) 3)
          (cctx.getD []), .pending, now, none, none, none⟩] ∧
    lastN ((ag.conversation_history cid).getD []) 3 <:+
      (ag.conversation_history cid).getD [] ∧
    (lastN ((ag.conversation_history cid).getD []) 3).length =
      min 3 ((ag.conversation_history cid).getD []).length := by
  refine ⟨rfl, lastN_suffix _ _, lastN_length _ _, ?_, lastN_suffix _ _,
    lastN_length _ _⟩
  rw [pq_miss_escalate llm ag s question cid phone cctx now t hmiss hreply
    hesc]
  rfl

/-- Claim C3 witness: the amended claim at the six-message history. -/
theorem claim_C3_witness :
    search_knowledge dbC3 "q" = [] ∧
    lastN msgsC3 5 <:+ msgsC3 ∧
    (lastN msgsC3 5).length = min 5 msgsC3.length ∧
    (process_question llmC3 agC3 dbC3 "q" "alice" none none 0).2.2.requests
      = [⟨0, "q", "alice", none, .escalation (lastN msgsC3 3) [], .pending,
          0, none, none, none⟩] ∧
    (lastN msgsC3 3).length = min 3 msgsC3.length := by
  have h := claim_C3_amended llmC3 agC3 dbC3 "q" "alice" none none 0
    "[ESCALATE] unsure" (by decide) rfl (by decide)
  exact ⟨by decide, by exact h.2.1, by exact h.2.2.1,
    by simpa using h.2.2.2.1, by exact h.2.2.2.2.2⟩

/-! ## Claim C4 (knowledge hit) -/

/-- The stored entry of the knowledge-hit example of the spec (claim C4). -/
def kC4 : KnowledgeEntry :=
  ⟨0, "What are your hours?", "9-8 Mon-Sat", "initial", [], 0, 0, 0⟩

/-- Store holding only `kC4` (claim C4). -/
def dbC4 : DBState := ⟨[], [kC4], 1⟩

/-- An agent with no history (claim C4). -/
def agC4 : AgentState := ⟨fun _ => none⟩

/-- A model oracle, never reached on the hit path (claim C4). -/
def llmC4 : List Message → ModelOutcome := fun _ => .reply "unreached"

/-- Claim C4: on a knowledge hit, `process_question` returns the FIRST
stored answer of that matching entry (store iteration order decides ties) with
`needs_help = false` and `knowledge_used` = the id of that entry, increments
exactly the usage count of that entry by one, creates no request, and appends
no turns to the conversation history of the customer. -/
theorem claim_C4 (llm : List Message → ModelOutcome) (ag : AgentState)
    (s : DBState) (question cid : String) (phone : Option String)
    (cctx : Option (List (String × String))) (now : Int)
    (k : KnowledgeEntry) (rest : List KnowledgeEntry)
    (hhit : search_knowledge s question = k :: rest) :
    (process_question llm ag s question cid phone cctx now).1 =
      ⟨k.answer, false, none, some k.id⟩ ∧
    (containsCI k.question question || containsCI k.answer question)
      = true ∧
    (∃ pre post, s.knowledge = pre ++ k :: post ∧
      ∀ e ∈ pre,
        (containsCI e.question question || containsCI e.answer question)
          = false) ∧
    (process_question llm ag s question cid phone cctx now).2.2.knowledge =
      s.knowledge.map (fun e =>
        if e.id = k.id then { e with usage_count := e.usage_count + 1 }
        else e) ∧
    { k with usage_count := k.usage_count + 1 } ∈
      (process_question llm ag s question cid phone cctx now).2.2.knowledge ∧
    (process_question llm ag s question cid phone cctx now).2.2.requests =
      s.requests ∧
    ((process_question llm ag s question cid phone cctx
        now).2.1).conversation_history cid =
      some ((ag.conversation_history cid).getD []) := by
  have hfilter : s.knowledge.filter (fun e =>
      containsCI e.question question || containsCI e.answer question)
        = k :: rest := hhit
  rw [List.filter_eq_cons_iff] at hfilter
  obtain ⟨pre, post, hdecomp, hpre, hk, -⟩ := hfilter
  have hkmem : k ∈ s.knowledge := by
    rw [hdecomp]
    exact List.mem_append_right _ (List.mem_cons_self _ _)
  have hguard : s.knowledge.any (fun e => e.id == k.id) = true :=
    List.any_eq_true.mpr ⟨k, hkmem, by simp⟩
  have hknow : (increment_knowledge_usage s k.id).2.knowledge =
      s.knowledge.map (fun e =>
        if e.id = k.id then { e with usage_count := e.usage_count + 1 }
        else e) := by
    unfold increment_knowledge_usage
    rw [if_pos hguard]
  rw [pq_hit llm ag s question cid phone cctx now k rest hhit]
  refine ⟨rfl, hk, ⟨pre, post, hdecomp, ?_⟩, hknow, ?_, ?_, ?_⟩
  · intro e he
    simpa using hpre e he
  · rw [hknow]
    refine List.mem_map.mpr ⟨k, hkmem, ?_⟩
    simp
  · exact increment_knowledge_usage_requests s k.id
  · exact setHistory_same _ _ _

/-- Claim C4 witness: the example given in the spec — stored question
"What are your hours?", input "what are your hours"; the usage count goes
from 0 to exactly 1 and no turn is appended. -/
theorem claim_C4_witness :
    search_knowledge dbC4 "what are your hours" = [kC4] ∧
    (process_question llmC4 agC4 dbC4 "what are your hours" "alice" none
        none 0).1 = ⟨"9-8 Mon-Sat", false, none, some 0⟩ ∧
    (process_question llmC4 agC4 dbC4 "what are your hours" "alice" none
        none 0).2.2.knowledge = [{ kC4 with usage_count := 1 }] ∧
    (process_question llmC4 agC4 dbC4 "what are your hours" "alice" none
        none 0).2.1.conversation_history "alice" = some [] := by
  have h := claim_C4 llmC4 agC4 dbC4 "what are your hours" "alice" none
    none 0 kC4 [] (by decide)
  exact ⟨by decide, h.1, by simpa using h.2.2.2.1, by exact h.2.2.2.2.2.2⟩

/-! ## Claim C5 (escalation on marker) -/

/-- An agent with no history (claim C5). -/
def agC5 : AgentState := ⟨fun _ => none⟩

/-- An empty store (claim C5). -/
def dbC5 : DBState := ⟨[], [], 0⟩

/-- The example model reply of the spec (claim C5). -/
def llmC5 : List Message → ModelOutcome :=
  fun _ => .reply "[ESCALATE] unsure"

/-- Claim C5: on a knowledge miss with a marker-prefixed reply,
`process_question` returns the fixed deferral text with
`needs_help = true`, creates exactly one Pending request whose question
equals the input, appends exactly the two turns (customer question,
deferral message) to the customer history, and leaves the knowledge base
untouched. -/
theorem claim_C5 (llm : List Message → ModelOutcome) (ag : AgentState)
    (s : DBState) (question cid : String) (phone : Option String)
    (cctx : Option (List (String × String))) (now : Int) (t : String)
    (hmiss : search_knowledge s question = [])
    (hreply : llm (build_messages ((ag.conversation_history cid).getD [])
      question) = .reply t)
    (hesc : startsWithStr (trimStr t) "[ESCALATE]" = true) :
    (process_question llm ag s question cid phone cctx now).1 =
      ⟨ESCALATION_MESSAGE, true, some s.next_id, none⟩ ∧
    (process_question llm ag s question cid phone cctx now).2.2.requests =
      s.requests ++ [⟨s.next_id, question, cid, phone,
        .escalation (lastN ((ag.conversation_history cid).getD []) 3)
          (cctx.getD []), .pending, now, none, none, none⟩] ∧
    (process_question llm ag s question cid phone cctx now).2.2.knowledge =
      s.knowledge ∧
    ((process_question llm ag s question cid phone cctx
        now).2.1).conversation_history cid =
      some (((ag.conversation_history cid).getD []) ++
        [⟨"user", question⟩, ⟨"assistant", ESCALATION_MESSAGE⟩]) := by
  rw [pq_miss_escalate llm ag s question cid phone cctx now t hmiss hreply
    hesc]
  exact ⟨rfl, rfl, rfl, setHistory_same _ _ _⟩

/-- Claim C5 witness: the example reply of the spec, "[ESCALATE] unsure" on an
empty store. -/
theorem claim_C5_witness :
    search_knowledge dbC5 "do you sell gift cards" = [] ∧
    startsWithStr (trimStr "[ESCALATE] unsure") "[ESCALATE]" = true ∧
    (process_question llmC5 agC5 dbC5 "do you sell gift cards" "alice"
        none none 4).1 = ⟨ESCALATION_MESSAGE, true, some 0, none⟩ ∧
    (process_question llmC5 agC5 dbC5 "do you sell gift cards" "alice"
        none none 4).2.2.requests =
      [⟨0, "do you sell gift cards", "alice", none, .escalation [] [],
        .pending, 4, none, none, none⟩] ∧
    (process_question llmC5 agC5 dbC5 "do you sell gift cards" "alice"
        none none 4).2.1.conversation_history "alice" =
      some [⟨"user", "do you sell gift cards"⟩,
            ⟨"assistant", ESCALATION_MESSAGE⟩] := by
  have h := claim_C5 llmC5 agC5 dbC5 "do you sell gift cards" "alice"
    none none 4 "[ESCALATE] unsure" (by decide) rfl (by decide)
  exact ⟨by decide, by decide, h.1, by simpa using h.2.1,
    by simpa using h.2.2.2⟩

/-! ## Claim C6 (service failure fallback) -/

/-- An agent with no history (claim C6). -/
def agC6 : AgentState := ⟨fun _ => none⟩

/-- An empty store (claim C6). -/
def dbC6 : DBState := ⟨[], [], 0⟩

/-- A model oracle that raises (claim C6). -/
def llmC6 : List Message → ModelOutcome :=
  fun _ => .failure "APIError: timeout"

/-- Claim C6: when the model call fails, `process_question` recovers
locally — it still returns a result (a deferral message with
`needs_help = true`) and creates exactly one Pending request whose
context records the failure description. -/
theorem claim_C6 (llm : List Message → ModelOutcome) (ag : AgentState)
    (s : DBState) (question cid : String) (phone : Option String)
    (cctx : Option (List (String × String))) (now : Int) (err : String)
    (hmiss : search_knowledge s question = [])
    (hfail : llm (build_messages ((ag.conversation_history cid).getD [])
      question) = .failure err) :
    (process_question llm ag s question cid phone cctx now).1 =
      ⟨ERROR_FALLBACK_MESSAGE, true, some s.next_id, none⟩ ∧
    (process_question llm ag s question cid phone cctx now).2.2.requests =
      s.requests ++ [⟨s.next_id, question, cid, phone, .errorCtx err,
        .pending, now, none, none, none⟩] ∧
    (process_question llm ag s question cid phone cctx now).2.2.knowledge =
      s.knowledge := by
  rw [pq_miss_failure llm ag s question cid phone cctx now err hmiss hfail]
  exact ⟨rfl, rfl, rfl⟩

/-- Claim C6 witness: a failing model call on an empty store. -/
theorem claim_C6_witness :
    search_knowledge dbC6 "anything" = [] ∧
    (process_question llmC6 agC6 dbC6 "anything" "alice" none none 2).1 =
      ⟨ERROR_FALLBACK_MESSAGE, true, some 0, none⟩ ∧
    (process_question llmC6 agC6 dbC6 "anything" "alice" none none
        2).2.2.requests =
      [⟨0, "anything", "alice", none, .errorCtx "APIError: timeout",
        .pending, 2, none, none, none⟩] := by
  have h := claim_C6 llmC6 agC6 dbC6 "anything" "alice" none none 2
    "APIError: timeout" (by decide) rfl
  exact ⟨by decide, h.1, by simpa using h.2.1⟩

/-! ## Claim C9 (result-shape invariant) -/

/-- Claim C9: every result of `process_question` satisfies
`needs_help = true` iff `help_request_id` is non-null, and
`knowledge_used` is non-null only when `needs_help = false`. -/
theorem claim_C9 (llm : List Message → ModelOutcome) (ag : AgentState)
    (s : DBState) (question cid : String) (phone : Option String)
    (cctx : Option (List (String × String))) (now : Int) :
    ((process_question llm ag s question cid phone cctx now).1.needs_help
        = true ↔
      ((process_question llm ag s question cid phone cctx
        now).1).help_request_id ≠ none) ∧
    (((process_question llm ag s question cid phone cctx
        now).1).knowledge_used ≠ none →
      (process_question llm ag s question cid phone cctx now).1.needs_help
        = false) := by
  cases hsk : search_knowledge s question with
  | cons k rest =>
    rw [pq_hit llm ag s question cid phone cctx now k rest hsk]
    simp
  | nil =>
    cases hllm : llm (build_messages ((ag.conversation_history cid).getD [])
        question) with
    | failure err =>
      rw [pq_miss_failure llm ag s question cid phone cctx now err hsk hllm]
      simp
    | reply t =>
      cases hst : startsWithStr (trimStr t) "[ESCALATE]" with
      | true =>
        rw [pq_miss_escalate llm ag s question cid phone cctx now t hsk
          hllm hst]
        simp
      | false =>
        rw [pq_miss_normal llm ag s question cid phone cctx now t hsk
          hllm hst]
        simp

/-! ## Claim C10 (history initialization and frame) -/

/-- An agent with no history (claim C10). -/
def agC10 : AgentState := ⟨fun _ => none⟩

/-- A knowledge entry matching the C10 witness question. -/
def kC10 : KnowledgeEntry :=
  ⟨0, "What are your hours?", "We are open 9-8 Mon-Sat.", "initial", [],
    0, 0, 0⟩

/-- Store holding only `kC10` (claim C10). -/
def dbC10 : DBState := ⟨[], [kC10], 1⟩

/-- A model oracle, never reached on the hit path (claim C10). -/
def llmC10 : List Message → ModelOutcome := fun _ => .reply "unreached"

/-- Claim C10: a call for a customer with no history creates that
history entry of that customer on every path — on the knowledge-hit path it is
the empty turn list — and leaves the history of every other customer
untouched. -/
theorem claim_C10 (llm : List Message → ModelOutcome) (ag : AgentState)
    (s : DBState) (question cid : String) (phone : Option String)
    (cctx : Option (List (String × String))) (now : Int)
    (hnone : ag.conversation_history cid = none) :
    ((((process_question llm ag s question cid phone cctx
        now).2.1).conversation_history cid).isSome = true) ∧
    (∀ k rest, search_knowledge s question = k :: rest →
      ((process_question llm ag s question cid phone cctx
        now).2.1).conversation_history cid = some []) ∧
    (∀ c, c ≠ cid →
      ((process_question llm ag s question cid phone cctx
        now).2.1).conversation_history c = ag.conversation_history c) := by
  cases hsk : search_knowledge s question with
  | cons k rest =>
    rw [pq_hit llm ag s question cid phone cctx now k rest hsk]
    refine ⟨by simp [setHistory_same], ?_, ?_⟩
    · intro k' rest' _
      rw [setHistory_same, hnone]
      rfl
    · intro c hc
      rw [setHistory_other _ _ _ _ hc]
  | nil =>
    cases hllm : llm (build_messages ((ag.conversation_history cid).getD [])
        question) with
    | failure err =>
      rw [pq_miss_failure llm ag s question cid phone cctx now err hsk hllm]
      refine ⟨by simp [setHistory_same], ?_, ?_⟩
      · intro k' rest' h
        exact List.noConfusion h
      · intro c hc
        rw [setHistory_other _ _ _ _ hc]
    | reply t =>
      cases hst : startsWithStr (trimStr t) "[ESCALATE]" with
      | true =>
        rw [pq_miss_escalate llm ag s question cid phone cctx now t hsk
          hllm hst]
        refine ⟨by simp [setHistory_same], ?_, ?_⟩
        · intro k' rest' h
          exact List.noConfusion h
        · intro c hc
          rw [setHistory_other _ _ _ _ hc, setHistory_other _ _ _ _ hc]
      | false =>
        rw [pq_miss_normal llm ag s question cid phone cctx now t hsk
          hllm hst]
        refine ⟨by simp [setHistory_same], ?_, ?_⟩
        · intro k' rest' h
          exact List.noConfusion h
        · intro c hc
          rw [setHistory_other _ _ _ _ hc, setHistory_other _ _ _ _ hc]

/-- Claim C10 witness: a first-time caller on the knowledge-hit path gets
an empty history entry; "bob" is untouched. -/
theorem claim_C10_witness :
    agC10.conversation_history "alice" = none ∧
    ((process_question llmC10 agC10 dbC10 "what are your hours" "alice"
        none none 0).2.1.conversation_history "alice").isSome = true ∧
    (process_question llmC10 agC10 dbC10 "what are your hours" "alice"
        none none 0).2.1.conversation_history "alice" = some [] ∧
    (process_question llmC10 agC10 dbC10 "what are your hours" "alice"
        none none 0).2.1.conversation_history "bob" =
      agC10.conversation_history "bob" := by
  have h := claim_C10 llmC10 agC10 dbC10 "what are your hours" "alice"
    none none 0 rfl
  exact ⟨rfl, h.1, h.2.1 kC10 [] (by decide), h.2.2 "bob" (by decide)⟩

end Receptionist
